import Mathlib

/-!
Shallow embedding of the image-segmentation engine in
`src/app/services/process_service.py` (class `ProcessService`) together with
the pieces of `src/app/controllers/app_controller.py` and
`src/app/ui/image_viewer.py` that the verified claims touch.

Modelling conventions:
* an intensity field (the flattened numpy float array of a grayscale image)
  is a `List ℚ`; machine floats are modelled by exact rationals;
* an 8-bit sample is a `ℕ` in `[0, 255]`;
* Python `round` and numpy `np.rint` (both round half to even) are `pyRound`;
* a numpy boolean mask is a `List Bool`;
* `np.random.choice` (the empty-cluster reinitialisation inside k-means) is
  nondeterministic, so the k-means loop returns an `Option`, with `none`
  standing for a run that entered the random branch;
* external PIL primitives that the engine only feeds through unchanged
  (the Sobel `np.hypot` magnitude, the `BoxBlur`/`MedianFilter`/`MinFilter`/
  `MaxFilter` local-statistic fields, text rendering) are modelled by
  quantifying over the field they produce, since the verified claims do not
  depend on their values.
-/

set_option maxRecDepth 1000000

/-- Python `round` and numpy `np.rint`: round to nearest, ties to even. -/
def pyRound (q : ℚ) : ℤ :=
  let f := ⌊q⌋
  let r := q - f
  if r < 1 / 2 then f
  else if 1 / 2 < r then f + 1
  else if f % 2 = 0 then f else f + 1

/-- `np.clip(z, 0, 255)` on an integer, producing an 8-bit sample. -/
def clampU8 (z : ℤ) : ℕ := (min 255 (max 0 z)).toNat

/-- `np.clip(np.rint(arr), 0, 255).astype(np.uint8)`: the float field rounded
and clamped to 8-bit samples (process_service.py lines 67 and 133). -/
def u8Of (arr : List ℚ) : List ℕ := arr.map (fun q => clampU8 (pyRound q))

/-- `ProcessService._apply_binary_mask`: `np.where(mask_bool, 255, 0)` as an
8-bit image (process_service.py lines 54-59). -/
def applyBinaryMask (mask : List Bool) : List ℕ :=
  mask.map (fun b => if b then 255 else 0)

/-- `np.clip(p, 0.0, 1.0)` (process_service.py line 131). -/
def clamp01 (p : ℚ) : ℚ := min 1 (max 0 p)

/-- `cumsum_from_top[t]` of `threshold_ptile`: the number of samples with
intensity `≥ t` (process_service.py line 140; the reversed cumulative sum of
the 256-bin histogram, evaluated at level `t`, is exactly this count). -/
def cntGe (arr : List ℕ) (t : ℕ) : ℕ := (arr.filter (fun v => t ≤ v)).length

/-- `target = int(round(p * total))` of `threshold_ptile`
(process_service.py line 141), with `p` already clamped to `[0,1]`. -/
def ptileTarget (arr : List ℕ) (p : ℚ) : ℕ :=
  (pyRound (clamp01 p * arr.length)).toNat

/-- The descending scan of `threshold_ptile` (process_service.py lines
144-149): `for t in range(255, -1, -1): if cnt t >= target: T = t else:
break`. `t` is the loop counter counting down, `acc` the current `T`. -/
def ptileGo (cnt : ℕ → ℕ) (target : ℕ) : ℕ → ℕ → ℕ
  | 0, acc => if target ≤ cnt 0 then 0 else acc
  | t + 1, acc => if target ≤ cnt (t + 1) then ptileGo cnt target t (t + 1) else acc

/-- The cut level `T` selected by `ProcessService.threshold_ptile`
(process_service.py lines 126-149). -/
def thresholdPtileT (arrq : List ℚ) (p : ℚ) : ℕ :=
  let arr := u8Of arrq
  ptileGo (cntGe arr) (ptileTarget arr p) 255 255

/-- `ProcessService.threshold_ptile` (process_service.py lines 126-151): the
binary mask `arr_u8 >= T`; an empty field short-circuits to the (empty)
all-background mask `np.zeros_like(arr_u8, dtype=bool)`. -/
def thresholdPtile (arrq : List ℚ) (p : ℚ) : List ℕ :=
  let arr := u8Of arrq
  if arr.length = 0 then applyBinaryMask (arr.map (fun _ => false))
  else applyBinaryMask (arr.map (fun v => decide (thresholdPtileT arrq p ≤ v)))

/-- `omega[t] * total` of `_otsu_threshold`: the cumulative histogram count
of samples with intensity `≤ t` (process_service.py line 74). -/
def cntLe (arr : List ℕ) (t : ℕ) : ℕ := (arr.filter (fun v => v ≤ t)).length

/-- `mu[t] * total` of `_otsu_threshold`: the cumulative intensity-weighted
histogram sum over levels `≤ t` (process_service.py line 75). -/
def sumLe (arr : List ℕ) (t : ℕ) : ℕ := (arr.filter (fun v => v ≤ t)).sum

/-- The between-class variance `sigma_b2[t]` of `_otsu_threshold`
(process_service.py lines 73-83): `omega = cntLe/total`, `mu = sumLe/total`,
`mu_t = mu[255]`, `(mu_t*omega - mu)^2 / (omega*(1-omega))`, with the term
defined as `0` wherever the denominator is not positive. -/
def sigmaB2 (arr : List ℕ) (t : ℕ) : ℚ :=
  let total : ℚ := arr.length
  let om : ℚ := cntLe arr t / total
  let mu : ℚ := sumLe arr t / total
  let muT : ℚ := sumLe arr 255 / total
  let num := (muT * om - mu) ^ 2
  let den := om * (1 - om)
  if 0 < den then num / den else 0

/-- Tail of `np.argmax`: first index attaining the maximum; only a strictly
larger value displaces the current best. -/
def argmaxFirstGo : ℕ → ℚ → ℕ → List ℚ → ℕ
  | best, _, _, [] => best
  | best, bv, i, x :: xs =>
    if bv < x then argmaxFirstGo i x (i + 1) xs else argmaxFirstGo best bv (i + 1) xs

/-- `np.argmax` over a rational array (first occurrence of the maximum). -/
def argmaxFirst : List ℚ → ℕ
  | [] => 0
  | x :: xs => argmaxFirstGo 0 x 1 xs

/-- `ProcessService._otsu_threshold` (process_service.py lines 61-85):
`t = argmax(sigma_b2)` over the 256 levels; an empty field returns `0`. -/
def otsuThreshold (arrq : List ℚ) : ℕ :=
  let arr := u8Of arrq
  if arr.length = 0 then 0
  else argmaxFirst ((List.range 256).map (fun t => sigmaB2 arr t))

/-- The 4×4 checkerboard field alternating intensities 0 and 255 (flattened
row-major), the concrete scenario of the spec. -/
def checker16 : List ℚ :=
  [0, 255, 0, 255, 255, 0, 255, 0, 0, 255, 0, 255, 255, 0, 255, 0]

/-- `mag.max()` of a numpy array, `0.0` when the array is empty
(process_service.py lines 111-114). -/
def maxList : List ℚ → ℚ
  | [] => 0
  | x :: xs => xs.foldl max x

/-- The magnitude normalisation of `segment_edges_sobel` (process_service.py
lines 110-118): rescale so the maximum maps to 255 when the maximum is
positive, otherwise an all-zero field. -/
def normalizeMag (mag : List ℚ) : List ℚ :=
  let mmax := maxList mag
  if 0 < mmax then mag.map (fun v => v * (255 / mmax))
  else mag.map (fun _ => 0)

/-- The tail of `ProcessService.segment_edges_sobel` (process_service.py
lines 110-122) downstream of the gradient-magnitude field `mag`: normalise,
take the Otsu threshold of the normalised field, binarise with `>=`. The
field `mag` itself (`np.hypot` of the two Sobel convolutions, an irrational
square root per sample) is left as the parameter. -/
def segmentEdgesSobelFromMag (mag : List ℚ) : List ℕ :=
  let norm := normalizeMag mag
  applyBinaryMask (norm.map (fun v => decide ((otsuThreshold norm : ℚ) ≤ v)))

/-- `float(np.mean(l))` over a nonempty list; numpy sum divided by length. -/
def listMean (l : List ℚ) : ℚ := l.sum / l.length

/-- `T0 = float(arr.mean()) if arr.size else 0.0` of `threshold_iterative`
(process_service.py line 163). -/
def initThreshold (arrq : List ℚ) : ℚ :=
  if arrq.length = 0 then 0 else listMean arrq

/-- The refinement loop of `threshold_iterative` (process_service.py lines
164-173): split at `T` into `G1 = {v ≤ T}` and `G2 = {v > T}`; stop when a
side is empty; `T' = (mean G1 + mean G2)/2`; stop (keeping `T'`) when
`|T' - T| < tol`, else continue with `T'`. The first argument counts the
remaining iterations of `for _ in range(max_iter)`. -/
def iterLoop (arrq : List ℚ) (tol : ℚ) : ℕ → ℚ → ℚ
  | 0, t => t
  | n + 1, t =>
    let g1 := arrq.filter (fun v => v ≤ t)
    let g2 := arrq.filter (fun v => t < v)
    if g1.length = 0 ∨ g2.length = 0 then t
    else
      let tNew := (listMean g1 + listMean g2) / 2
      if |tNew - t| < tol then tNew
      else iterLoop arrq tol n tNew

/-- The final threshold of `ProcessService.threshold_iterative`; a Python
`max_iter <= 0` makes `range(max_iter)` empty, hence `Int.toNat`. -/
def thresholdIterativeT (arrq : List ℚ) (tol : ℚ) (maxIter : ℤ) : ℚ :=
  iterLoop arrq tol maxIter.toNat (initThreshold arrq)

/-- `ProcessService.threshold_iterative` (process_service.py lines 154-175):
the binary mask `arr > T` for the final threshold. -/
def thresholdIterative (arrq : List ℚ) (tol : ℚ) (maxIter : ℤ) : List ℕ :=
  applyBinaryMask (arrq.map (fun v => decide (thresholdIterativeT arrq tol maxIter < v)))

/-- Tail of `np.argmin`: first index attaining the minimum; only a strictly
smaller value displaces the current best. -/
def argminFirstGo : ℕ → ℚ → ℕ → List ℚ → ℕ
  | best, _, _, [] => best
  | best, bv, i, x :: xs =>
    if x < bv then argminFirstGo i x (i + 1) xs else argminFirstGo best bv (i + 1) xs

/-- `np.argmin` over a rational array (first occurrence of the minimum). -/
def argminFirst : List ℚ → ℕ
  | [] => 0
  | x :: xs => argminFirstGo 0 x 1 xs

/-- `labels = np.argmin(np.abs(flat - centroids.T), axis=1)` of
`kmeans_segment`, per sample (process_service.py lines 190-191). -/
def assign (cents : List ℚ) (v : ℚ) : ℕ :=
  argminFirst (cents.map (fun c => |v - c|))

/-- The per-cluster centroid update of `kmeans_segment` (process_service.py
lines 192-201), iterating `ci` upward with `n` clusters left to process: the
new centroid is the mean of the samples assigned to `ci`; an empty cluster
takes `np.random.choice` of the data, modelled as the nondeterministic
outcome `none`. -/
def kmeansCentsGo (flat cents : List ℚ) : ℕ → ℕ → Option (List ℚ)
  | 0, _ => some []
  | n + 1, ci =>
    let pts := flat.filter (fun v => assign cents v = ci)
    if pts.length = 0 then none
    else
      match kmeansCentsGo flat cents n (ci + 1) with
      | none => none
      | some rest => some (listMean pts :: rest)

/-- One full centroid update over clusters `0, ..., k-1`. -/
def kmeansStep (flat cents : List ℚ) (k : ℕ) : Option (List ℚ) :=
  kmeansCentsGo flat cents k 0

/-- `changed`: some centroid moved by more than `1e-3` (process_service.py
lines 202-203). -/
def centroidsChanged (nc oc : List ℚ) : Bool :=
  (nc.zip oc).any (fun pq => decide (1 / 1000 < |pq.1 - pq.2|))

/-- The main loop of `kmeans_segment` (process_service.py lines 188-206):
update centroids, stop early when no centroid moved by more than `1e-3`.
The first `ℕ` counts the remaining iterations of `for _ in range(max_iter)`. -/
def kmeansLoop (flat : List ℚ) (k : ℕ) : ℕ → List ℚ → Option (List ℚ)
  | 0, cents => some cents
  | n + 1, cents =>
    match kmeansStep flat cents k with
    | none => none
    | some nc => if centroidsChanged nc cents then kmeansLoop flat k n nc else some nc

/-- `np.linspace(0.0, 255.0, num=k)`: `k` evenly spaced values with inclusive
endpoints; `num=1` gives `[0]`, `num=0` gives `[]`. -/
def linspace255 (k : ℕ) : List ℚ :=
  if k ≤ 1 then List.replicate k 0
  else (List.range k).map (fun i => 255 * i / (k - 1))

/-- `.astype(np.uint8)` on a float sample known to lie in `[0, 255]` (the
k-means centroids are means of such samples): C-style truncation toward
zero, which for these values is the floor. -/
def truncU8 (q : ℚ) : ℕ := ⌊q⌋.toNat

/-- The centroids held after the main loop of `kmeans_segment`
(process_service.py lines 186-206), `none` when a run hit the random
empty-cluster reinitialisation. -/
def kmeansFinalCents (flat : List ℚ) (k : ℕ) (maxIter : ℤ) : Option (List ℚ) :=
  kmeansLoop flat k maxIter.toNat (linspace255 k)

/-- `ProcessService.kmeans_segment` (process_service.py lines 178-212): the
posterised image `centroids.squeeze()[labels].astype(np.uint8)`, with the
final assignment recomputed from the final centroids (lines 209-211). -/
def kmeansSegment (flat : List ℚ) (k : ℕ) (maxIter : ℤ) : Option (List ℕ) :=
  (kmeansFinalCents flat k maxIter).map
    (fun cents => flat.map (fun v => truncU8 (cents.getD (assign cents v) 0)))

/-- `pol = (polarity or "bright").lower()` of `adaptive_threshold`
(process_service.py line 297): Python `None` and `""` are falsy, so `or`
replaces them with `"bright"`; then lower-case (`String.toLower` models
Python `str.lower` on the ASCII strings involved). -/
def polarityKey (polarity : Option String) : String :=
  (match polarity with
   | none => "bright"
   | some s => if s = "" then "bright" else s).toLower

/-- The mask of `adaptive_threshold` (process_service.py lines 293-301):
foreground iff `I <= C*S + T` for polarity key `"dark"`, else iff
`I >= C*S + T`. `i` is the intensity field, `s` the local-statistic field
`S_k` produced by the external PIL filter of `_local_stat` (same shape, so
the two fields are zipped). -/
def adaptiveMaskBools (i s : List ℚ) (c t : ℚ) (polarity : Option String) : List Bool :=
  if polarityKey polarity = "dark" then (i.zip s).map (fun p => decide (p.1 ≤ c * p.2 + t))
  else (i.zip s).map (fun p => decide (c * p.2 + t ≤ p.1))

/-- `ProcessService.adaptive_threshold` (process_service.py lines 278-302)
downstream of the local-statistic field. -/
def adaptiveThreshold (i s : List ℚ) (c t : ℚ) (polarity : Option String) : List ℕ :=
  applyBinaryMask (adaptiveMaskBools i s c t polarity)

/-- A PIL grayscale sub-image as consumed by `_compose_labeled_row`: only
its dimensions matter for the composition geometry. -/
structure GrayImage where
  width : ℕ
  height : ℕ
  data : List ℕ
deriving DecidableEq

/-- The canvas built by `_compose_labeled_row`: dimensions, the fill colour
passed to `Image.new`, and the x-offsets at which the sub-images are pasted
(each at `y = label_h`); the label text itself is rendered by the external
`ImageDraw.text`. -/
structure RowCanvas where
  width : ℕ
  height : ℕ
  fill : ℕ
  pasteXs : List ℕ
deriving DecidableEq

/-- `ProcessService._compose_labeled_row` (process_service.py lines 304-323):
`w, h` from the first sub-image, `label_h = 24`, `gap = 12`,
`total_w = w*n + gap*(n-1)`, `total_h = h + label_h`, white (255) canvas,
paste positions advancing by `w + gap`; the empty list yields the 1×1 white
placeholder. `kmeans_compare` (lines 214-242) inlines the same geometry. -/
def composeLabeledRow (imgs : List (String × GrayImage)) : RowCanvas :=
  match imgs with
  | [] => ⟨1, 1, 255, []⟩
  | li :: _ =>
    let w := li.2.width
    let n := imgs.length
    ⟨w * n + 12 * (n - 1), li.2.height + 24, 255,
      (List.range n).map (fun idx => idx * (w + 12))⟩

/-- PIL channel modes used by this application: `"L"` (single-channel
intensity) and `"RGBA"` (colour + alpha). -/
inductive PilMode where
  | l
  | rgba
deriving DecidableEq

/-- A decoded PIL image in one of the two supported channel modes. -/
inductive PilImage where
  | l (width height : ℕ) (data : List ℕ)
  | rgba (width height : ℕ) (data : List (ℕ × ℕ × ℕ × ℕ))
deriving DecidableEq

/-- The mode tag of a `PilImage`. -/
def imageMode : PilImage → PilMode
  | .l _ _ _ => .l
  | .rgba _ _ _ => .rgba

/-- Pillow's RGB→L luma (ITU-R BT.601 weights with rounding, as in
Pillow's `convert("L")`): `(r*19595 + g*38470 + b*7471 + 0x8000) >> 16`. -/
def lumaBT601 (r g b : ℕ) : ℕ :=
  (r * 19595 + g * 38470 + b * 7471 + 32768) / 65536

/-- `ProcessService.to_grayscale` (process_service.py lines 32-43): an
`"L"` image returns a copy; anything else is `image.convert("L")`, which
computes luma from the colour channels and drops alpha. -/
def toGrayscale : PilImage → PilImage
  | .l w h d => .l w h d
  | .rgba w h d => .l w h (d.map (fun p => lumaBT601 p.1 p.2.1 p.2.2.1))

/-- The alpha channel of a `PilImage`: `"L"` images have none. -/
def alphaChannel : PilImage → Option (List ℕ)
  | .l _ _ _ => none
  | .rgba _ _ d => some (d.map (fun p => p.2.2.2))

/-- `image.convert("RGBA")`: an `"L"` image replicates its intensity into
the colour channels with opaque alpha 255. -/
def toRGBA : PilImage → PilImage
  | .rgba w h d => .rgba w h d
  | .l w h d => .rgba w h (d.map (fun v => (v, v, v, 255)))

/-- `ImageViewer.set_image` keeps
`image if image.mode == "RGBA" else image.convert("RGBA")` as the separate
cursor-sampling copy (image_viewer.py, `_rgba_sampling_image`). -/
def rgbaSamplingImage (img : PilImage) : PilImage :=
  match img with
  | .rgba _ _ _ => img
  | .l _ _ _ => toRGBA img

/-- The `"Оттенки серого"` branch of `AppController._apply_processing`
(app_controller.py lines 140-142): the displayed image of the grayscale
processing mode is `to_grayscale(src)`. -/
def applyProcessingGray (src : PilImage) : PilImage := toGrayscale src

/-! ## Helper lemmas -/

theorem mem_applyBinaryMask {v : ℕ} {mask : List Bool} (h : v ∈ applyBinaryMask mask) :
    v = 0 ∨ v = 255 := by
  unfold applyBinaryMask at h
  obtain ⟨b, -, rfl⟩ := List.mem_map.1 h
  cases b <;> simp

theorem cntGe_antitone (arr : List ℕ) {s t : ℕ} (h : s ≤ t) : cntGe arr t ≤ cntGe arr s := by
  induction arr with
  | nil => simp [cntGe]
  | cons x xs ih =>
    unfold cntGe at *
    simp only [List.filter_cons]
    by_cases hx : t ≤ x
    · have hx' : s ≤ x := le_trans h hx
      simp [hx, hx']
      exact ih
    · by_cases hx' : s ≤ x
      · simp [hx, hx']
        exact le_trans ih (Nat.le_succ _)
      · simp [hx, hx']
        exact ih

theorem ptileGo_of_forall (cnt : ℕ → ℕ) (target : ℕ) (t acc : ℕ)
    (h : ∀ u, u ≤ t → target ≤ cnt u) : ptileGo cnt target t acc = 0 := by
  induction t generalizing acc with
  | zero => simp [ptileGo, h 0 le_rfl]
  | succ u ih =>
    rw [ptileGo, if_pos (h (u + 1) le_rfl)]
    exact ih _ (fun w hw => h w (le_trans hw (Nat.le_succ u)))

theorem ptileGo_of_top_fail (cnt : ℕ → ℕ) (target : ℕ) (t acc : ℕ)
    (h : ¬ target ≤ cnt t) : ptileGo cnt target t acc = acc := by
  cases t with
  | zero => simp [ptileGo, h]
  | succ u => rw [ptileGo, if_neg h]

theorem u8Of_mem_le {v : ℕ} {arrq : List ℚ} (h : v ∈ u8Of arrq) : v ≤ 255 := by
  unfold u8Of at h
  obtain ⟨q, -, rfl⟩ := List.mem_map.1 h
  unfold clampU8
  omega

theorem listMean_replicate {n : ℕ} (hn : n ≠ 0) (x : ℚ) :
    listMean (List.replicate n x) = x := by
  rw [listMean, List.sum_replicate, List.length_replicate, nsmul_eq_mul]
  rw [mul_comm, mul_div_assoc, div_self (Nat.cast_ne_zero.2 hn), mul_one]

/-! ## Claim theorems -/

/-- C9: for every nonempty field and `p ∈ [0,1]`, the cut computed inside
`threshold_ptile` is always `0` or `255`; it is `0` — and the mask selects
every pixel — exactly when the number of samples at intensity `255` reaches
`target = round(p·N)`, and otherwise it is `255` and the mask selects
exactly the samples at intensity `255`. -/
theorem ptile_cut_zero_or_top (arrq : List ℚ) (p : ℚ)
    (hne : arrq ≠ []) (hp0 : 0 ≤ p) (hp1 : p ≤ 1) :
    (thresholdPtileT arrq p = 0 ∨ thresholdPtileT arrq p = 255) ∧
    (thresholdPtileT arrq p = 0 ↔ ptileTarget (u8Of arrq) p ≤ cntGe (u8Of arrq) 255) ∧
    (ptileTarget (u8Of arrq) p ≤ cntGe (u8Of arrq) 255 →
      thresholdPtile arrq p = List.replicate arrq.length 255) ∧
    (¬ ptileTarget (u8Of arrq) p ≤ cntGe (u8Of arrq) 255 →
      thresholdPtile arrq p = (u8Of arrq).map (fun v => if v = 255 then 255 else 0)) := by
  have hlen : (u8Of arrq).length = arrq.length := List.length_map _ _
  have hlen0 : ¬ (u8Of arrq).length = 0 := by
    rw [hlen]
    exact List.length_eq_zero.not.2 hne
  by_cases htop : ptileTarget (u8Of arrq) p ≤ cntGe (u8Of arrq) 255
  · have hT : thresholdPtileT arrq p = 0 := by
      unfold thresholdPtileT
      exact ptileGo_of_forall _ _ _ _
        (fun u hu => le_trans htop (cntGe_antitone (u8Of arrq) hu))
    refine ⟨Or.inl hT, by simp [hT, htop], fun _ => ?_, fun hc => absurd htop hc⟩
    unfold thresholdPtile
    rw [if_neg hlen0, hT]
    unfold applyBinaryMask
    rw [List.map_map]
    have : ((fun b => if b = true then 255 else 0) ∘ fun v => decide (0 ≤ v)) =
        (Function.const ℕ (255 : ℕ)) := by
      funext v
      simp
    rw [this, List.map_const, hlen]
  · have hT : thresholdPtileT arrq p = 255 := by
      unfold thresholdPtileT
      exact ptileGo_of_top_fail _ _ _ _ htop
    refine ⟨Or.inr hT, by simp [hT, htop], fun hc => absurd hc htop, fun _ => ?_⟩
    unfold thresholdPtile
    rw [if_neg hlen0, hT]
    unfold applyBinaryMask
    rw [List.map_map]
    refine List.map_congr_left (fun v hv => ?_)
    have hv255 : v ≤ 255 := u8Of_mem_le hv
    by_cases he : v = 255
    · simp [he]
    · have : ¬ (255 ≤ v) := by omega
      simp [he, this]

/-- C9 witness: the theorem applied to the two-pixel field `[100, 200]`
with `p = 1/2`. -/
theorem ptile_cut_zero_or_top_witness :
    ([(100 : ℚ), 200] ≠ ([] : List ℚ)) ∧ ((0 : ℚ) ≤ 1 / 2) ∧ ((1 / 2 : ℚ) ≤ 1) ∧
    (thresholdPtileT [(100 : ℚ), 200] (1 / 2) = 0 ∨
      thresholdPtileT [(100 : ℚ), 200] (1 / 2) = 255) :=
  ⟨by simp, one_half_pos.le, one_half_lt_one.le,
    (ptile_cut_zero_or_top [(100 : ℚ), 200] (1 / 2) (by simp)
      one_half_pos.le one_half_lt_one.le).1⟩

/-- C1: evaluation of `threshold_ptile` at the failing input: the two-pixel
field `[100, 200]` with `p = 1/2` has `target = round(0.5·2) = 1`, yet the
selected cut is `T = 255` with `count(I ≥ 255) = 0 < 1`, even though the cut
`200` would satisfy `count(I ≥ 200) = 1 ≥ 1`: the code violates the claimed
area bound (and its own docstring). -/
theorem ptile_area_bound_fails_on_failing_input :
    thresholdPtileT [(100 : ℚ), 200] (1 / 2) = 255 ∧
    ptileTarget (u8Of [(100 : ℚ), 200]) (1 / 2) = 1 ∧
    cntGe (u8Of [(100 : ℚ), 200]) 255 = 0 ∧
    cntGe (u8Of [(100 : ℚ), 200]) 200 = 1 := by
  with_unfolding_all decide

/-- C2 counterexample: on the 4×4 checkerboard histogram the between-class
variance is maximal (and equal) at every level `0..254`, so the
first-occurrence argmax returns `0`, which does not lie in `[1,254]`, and
the mask `I ≥ 0` is all-foreground rather than the checkerboard pattern. -/
theorem otsu_checkerboard_not_in_range :
    otsuThreshold checker16 = 0 ∧
    ¬ (1 ≤ otsuThreshold checker16) ∧
    applyBinaryMask ((u8Of checker16).map
      (fun v => decide (otsuThreshold checker16 ≤ v))) = List.replicate 16 255 ∧
    List.replicate 16 (255 : ℕ) ≠ u8Of checker16 := by
  with_unfolding_all decide

/-- C2 amended: `_otsu_threshold` on the 4×4 checkerboard returns `0` (the
first level attaining the maximal between-class variance), and binarising
with `I ≥ 0` marks every pixel foreground. -/
theorem otsu_checkerboard_zero_allforeground :
    otsuThreshold checker16 = 0 ∧
    applyBinaryMask ((u8Of checker16).map
      (fun v => decide (otsuThreshold checker16 ≤ v))) = List.replicate 16 255 := by
  with_unfolding_all decide

/-- C3 counterexample: on the field `[10, 11, 11, 200]` with `k = 2`,
`max_iter = 50`, the run converges (never touching the random branch) to
centroids `[32/3, 200]`; the first sample's assigned centroid is `32/3`,
whose nearest integer is `11`, yet the posterised output sample is `10` —
`.astype(np.uint8)` truncates instead of rounding. -/
theorem kmeans_output_truncates_not_rounds :
    kmeansFinalCents [10, 11, 11, 200] 2 50 = some [32 / 3, 200] ∧
    kmeansSegment [10, 11, 11, 200] 2 50 = some [10, 10, 10, 200] ∧
    assign [32 / 3, 200] 10 = 0 ∧
    pyRound (32 / 3) = 11 ∧
    (10 : ℕ) ≠ 11 := by
  with_unfolding_all decide

/-- C3 amended: whenever a `kmeans_segment` run avoids the random
empty-cluster branch and yields final centroids `cents`, every sample of the
posterised image equals its assigned centroid's value truncated to an
integer (floor, the values being non-negative) — not rounded. -/
theorem kmeans_posterize_floor (flat : List ℚ) (k : ℕ) (m : ℤ) (cents : List ℚ)
    (h : kmeansFinalCents flat k m = some cents) :
    kmeansSegment flat k m =
      some (flat.map (fun v => truncU8 (cents.getD (assign cents v) 0))) := by
  unfold kmeansSegment
  rw [h]
  rfl

/-- C3 witness: the amended theorem applied to the concrete run on
`[10, 11, 11, 200]` with `k = 2`, `max_iter = 50`. -/
theorem kmeans_posterize_floor_witness :
    kmeansSegment [(10 : ℚ), 11, 11, 200] 2 50 =
      some ([(10 : ℚ), 11, 11, 200].map
        (fun v => truncU8 (([32 / 3, 200] : List ℚ).getD (assign [32 / 3, 200] v) 0))) :=
  kmeans_posterize_floor [(10 : ℚ), 11, 11, 200] 2 50 [32 / 3, 200]
    (by with_unfolding_all decide)

/-- C4 counterexample: `max_iter ≤ 0` is not the same as `max_iter = 1`: on
`[0, 0, 0, 100, 110, 255, 255]` with `tol = 1/2` the iterative mask at
`max_iter = 0` (threshold = the mean `720/7`) includes the sample `110`,
while at `max_iter = 1` (threshold `695/6`) it does not; for k-means on
`[10, 200]` with `k = 2`, `max_iter = 0` posterises with the initial
centroids `[0, 255]` while `max_iter = 1` gives `[10, 200]`. -/
theorem maxiter_zero_differs_from_one :
    thresholdIterative [(0 : ℚ), 0, 0, 100, 110, 255, 255] (1 / 2) 0 ≠
      thresholdIterative [(0 : ℚ), 0, 0, 100, 110, 255, 255] (1 / 2) 1 ∧
    kmeansSegment [(10 : ℚ), 200] 2 0 ≠ kmeansSegment [(10 : ℚ), 200] 2 1 := by
  with_unfolding_all decide

/-- C4 amended: a non-positive `max_iter` makes `range(max_iter)` empty, so
neither operation raises but both run zero refinement iterations:
`threshold_iterative` thresholds at the initial mean, and `kmeans_segment`
posterises with the initial evenly spaced centroids (which can differ from
the `max_iter = 1` result). -/
theorem nonpositive_maxiter_runs_zero_iterations (arrq : List ℚ) (tol : ℚ) (k : ℕ)
    (m : ℤ) (hm : m ≤ 0) :
    thresholdIterativeT arrq tol m = initThreshold arrq ∧
    thresholdIterative arrq tol m =
      applyBinaryMask (arrq.map (fun v => decide (initThreshold arrq < v))) ∧
    kmeansFinalCents arrq k m = some (linspace255 k) ∧
    kmeansSegment arrq k m =
      some (arrq.map
        (fun v => truncU8 ((linspace255 k).getD (assign (linspace255 k) v) 0))) := by
  have h0 : m.toNat = 0 := Int.toNat_of_nonpos hm
  have h1 : thresholdIterativeT arrq tol m = initThreshold arrq := by
    unfold thresholdIterativeT
    rw [h0]
    rfl
  have h2 : kmeansFinalCents arrq k m = some (linspace255 k) := by
    unfold kmeansFinalCents
    rw [h0]
    rfl
  refine ⟨h1, ?_, h2, ?_⟩
  · unfold thresholdIterative
    rw [h1]
  · unfold kmeansSegment
    rw [h2]
    rfl

/-- C4 witness: the amended theorem applied at `max_iter = -3` on the
one-sample field `[5]` with `k = 2`. -/
theorem nonpositive_maxiter_runs_zero_iterations_witness :
    ((-3 : ℤ) ≤ 0) ∧ thresholdIterativeT [(5 : ℚ)] 1 (-3) = initThreshold [(5 : ℚ)] :=
  ⟨by decide,
    (nonpositive_maxiter_runs_zero_iterations [(5 : ℚ)] 1 2 (-3) (by decide)).1⟩

/-- C5 counterexample: for the 1×1 RGBA input with alpha `7`, the displayed
image of the grayscale processing mode is the mode-"L" conversion, which
carries no alpha channel at all — it does not keep the input's alpha. -/
theorem grayscale_display_drops_alpha :
    alphaChannel (applyProcessingGray (PilImage.rgba 1 1 [(1, 2, 3, 7)])) = none ∧
    alphaChannel (PilImage.rgba 1 1 [(1, 2, 3, 7)]) = some [7] := by
  exact ⟨rfl, rfl⟩

/-- C5 amended: for every 4-channel colour+alpha input, the displayed image
of the grayscale processing mode is a single-channel mode-"L" image with no
alpha; the input's alpha channel survives only in the viewer's separate
RGBA cursor-sampling copy of the unprocessed image. -/
theorem grayscale_display_is_alpha_free (w h : ℕ) (d : List (ℕ × ℕ × ℕ × ℕ)) :
    imageMode (applyProcessingGray (PilImage.rgba w h d)) = PilMode.l ∧
    alphaChannel (applyProcessingGray (PilImage.rgba w h d)) = none ∧
    alphaChannel (rgbaSamplingImage (PilImage.rgba w h d)) =
      alphaChannel (PilImage.rgba w h d) := by
  exact ⟨rfl, rfl, rfl⟩

/-- C6: every binary mask produced by any threshold variant — P-tile,
iterative, adaptive, and the Sobel edge mask (stated for every gradient
magnitude field) — contains only the samples `0` and `255`, for every input
field and parameter values. -/
theorem threshold_masks_binary (arrq : List ℚ) (p tol : ℚ) (m : ℤ)
    (i s : List ℚ) (c t : ℚ) (pol : Option String) (mag : List ℚ) (v : ℕ) :
    (v ∈ thresholdPtile arrq p → v = 0 ∨ v = 255) ∧
    (v ∈ thresholdIterative arrq tol m → v = 0 ∨ v = 255) ∧
    (v ∈ adaptiveThreshold i s c t pol → v = 0 ∨ v = 255) ∧
    (v ∈ segmentEdgesSobelFromMag mag → v = 0 ∨ v = 255) := by
  refine ⟨fun h => ?_, fun h => ?_, fun h => ?_, fun h => ?_⟩
  · simp only [thresholdPtile] at h
    split at h
    · exact mem_applyBinaryMask h
    · exact mem_applyBinaryMask h
  · exact mem_applyBinaryMask h
  · exact mem_applyBinaryMask h
  · exact mem_applyBinaryMask h

/-- C6 witness: the invariant applied to the one-pixel field `[100]` with
`p = 0`, whose P-tile mask is `[255]`. -/
theorem threshold_masks_binary_witness :
    255 ∈ thresholdPtile [(100 : ℚ)] 0 ∧ ((255 : ℕ) = 0 ∨ (255 : ℕ) = 255) :=
  ⟨by with_unfolding_all decide,
    (threshold_masks_binary [(100 : ℚ)] 0 0 0 [] [] 0 0 none [] 255).1
      (by with_unfolding_all decide)⟩

/-- C10: `adaptive_threshold` dispatches only on whether the polarity is a
case-insensitive `"dark"`: every other value — `None`, the empty string, or
any unrecognized string — yields the bright mask `I ≥ C·S + T`, while a
case-insensitive `"dark"` yields the dark mask `I ≤ C·S + T`; no polarity
value raises. -/
theorem adaptive_polarity_dispatch (i s : List ℚ) (c t : ℚ) (pol : Option String) :
    ((∀ str, pol = some str → str.toLower ≠ "dark") →
      adaptiveThreshold i s c t pol =
        applyBinaryMask ((i.zip s).map (fun pr => decide (c * pr.2 + t ≤ pr.1)))) ∧
    (∀ str, pol = some str → str.toLower = "dark" →
      adaptiveThreshold i s c t pol =
        applyBinaryMask ((i.zip s).map (fun pr => decide (pr.1 ≤ c * pr.2 + t)))) := by
  have hbright : ("bright".toLower : String) ≠ "dark" := by with_unfolding_all decide
  have hempty : ("".toLower : String) ≠ "dark" := by with_unfolding_all decide
  constructor
  · intro hnd
    have hkey : polarityKey pol ≠ "dark" := by
      cases pol with
      | none => exact hbright
      | some str =>
        show (if str = "" then "bright" else str).toLower ≠ "dark"
        by_cases hs : str = ""
        · rw [if_pos hs]
          exact hbright
        · rw [if_neg hs]
          exact hnd str rfl
    unfold adaptiveThreshold adaptiveMaskBools
    rw [if_neg hkey]
  · intro str hpol hlow
    subst hpol
    have hkey : polarityKey (some str) = "dark" := by
      show (if str = "" then "bright" else str).toLower = "dark"
      have hs : str ≠ "" := by
        intro he
        rw [he] at hlow
        exact hempty hlow
      rw [if_neg hs]
      exact hlow
    unfold adaptiveThreshold adaptiveMaskBools
    rw [if_pos hkey]

/-- C10 witness: the dispatch theorem applied to the upper-case polarity
`"DARK"` on the one-pixel fields `I = [5]`, `S = [3]`. -/
theorem adaptive_polarity_dispatch_witness :
    adaptiveThreshold [(5 : ℚ)] [(3 : ℚ)] 1 0 (some "DARK") =
      applyBinaryMask (([(5 : ℚ)].zip [(3 : ℚ)]).map
        (fun pr => decide (pr.1 ≤ 1 * pr.2 + 0))) :=
  (adaptive_polarity_dispatch [(5 : ℚ)] [(3 : ℚ)] 1 0 (some "DARK")).2 "DARK" rfl
    (by with_unfolding_all decide)

/-- C8: for every nonempty sequence of labeled results whose sub-images all
share one width `w` and height `h`, the composed comparison row has width
`w·n + 12·(n−1)`, height `h + 24`, and a white (255) background fill. -/
theorem compose_row_geometry (imgs : List (String × GrayImage)) (w h : ℕ)
    (hne : imgs ≠ []) (hsz : ∀ li ∈ imgs, li.2.width = w ∧ li.2.height = h) :
    (composeLabeledRow imgs).width = w * imgs.length + 12 * (imgs.length - 1) ∧
    (composeLabeledRow imgs).height = h + 24 ∧
    (composeLabeledRow imgs).fill = 255 := by
  cases imgs with
  | nil => exact absurd rfl hne
  | cons li rest =>
    have h1 := hsz li (List.mem_cons_self _ _)
    refine ⟨?_, ?_, rfl⟩
    · show li.2.width * (li :: rest).length + 12 * ((li :: rest).length - 1) =
        w * (li :: rest).length + 12 * ((li :: rest).length - 1)
      rw [h1.1]
    · show li.2.height + 24 = h + 24
      rw [h1.2]

/-- C8 witness: three 10×10 inputs yield a 54×34 white canvas. -/
theorem compose_row_geometry_witness :
    (composeLabeledRow
      [("k=2", ⟨10, 10, []⟩), ("k=3", ⟨10, 10, []⟩), ("k=4", ⟨10, 10, []⟩)]).width = 54 ∧
    (composeLabeledRow
      [("k=2", ⟨10, 10, []⟩), ("k=3", ⟨10, 10, []⟩), ("k=4", ⟨10, 10, []⟩)]).height = 34 ∧
    (composeLabeledRow
      [("k=2", ⟨10, 10, []⟩), ("k=3", ⟨10, 10, []⟩), ("k=4", ⟨10, 10, []⟩)]).fill = 255 := by
  have h := compose_row_geometry
    [("k=2", ⟨10, 10, []⟩), ("k=3", ⟨10, 10, []⟩), ("k=4", ⟨10, 10, []⟩)] 10 10
    (by simp) (by decide)
  simpa using h

/-- C7: on the synthetic bimodal field with `n` samples at intensity 10 and
`n` at intensity 240, `threshold_iterative` with `tol = 1/2` and
`max_iter = 100` terminates at the very first refinement step with the
final threshold `125`, strictly between the two modes. -/
theorem iterative_bimodal_between_modes (n : ℕ) (hn : 1 ≤ n) :
    thresholdIterativeT (List.replicate n (10 : ℚ) ++ List.replicate n 240) (1 / 2) 100 = 125 ∧
    (10 : ℚ) < 125 ∧ (125 : ℚ) < 240 := by
  refine ⟨?_, by norm_num, by norm_num⟩
  have hn' : n ≠ 0 := by omega
  have hnq : (0 : ℚ) < n := by exact_mod_cast Nat.pos_of_ne_zero hn'
  have hlen : (List.replicate n (10 : ℚ) ++ List.replicate n 240).length = n + n := by simp
  have hinit : initThreshold (List.replicate n (10 : ℚ) ++ List.replicate n 240) = 125 := by
    unfold initThreshold
    rw [if_neg (by rw [hlen]; omega), listMean, hlen]
    rw [List.sum_append, List.sum_replicate, List.sum_replicate, nsmul_eq_mul, nsmul_eq_mul]
    push_cast
    rw [div_eq_iff (by positivity)]
    ring
  have hfilter1 : (List.replicate n (10 : ℚ) ++ List.replicate n 240).filter
      (fun v => decide (v ≤ (125 : ℚ))) = List.replicate n 10 := by
    rw [List.filter_append, List.filter_replicate, List.filter_replicate]
    norm_num
  have hfilter2 : (List.replicate n (10 : ℚ) ++ List.replicate n 240).filter
      (fun v => decide ((125 : ℚ) < v)) = List.replicate n 240 := by
    rw [List.filter_append, List.filter_replicate, List.filter_replicate]
    norm_num
  unfold thresholdIterativeT
  rw [hinit, show ((100 : ℤ).toNat) = 99 + 1 from rfl, iterLoop]
  simp only [hfilter1, hfilter2, List.length_replicate]
  rw [if_neg (by omega)]
  rw [listMean_replicate hn', listMean_replicate hn']
  norm_num

/-- C7 witness: the convergence theorem applied to the 4-pixel field with
two samples at each mode. -/
theorem iterative_bimodal_between_modes_witness :
    1 ≤ 2 ∧
    (thresholdIterativeT (List.replicate 2 (10 : ℚ) ++ List.replicate 2 240) (1 / 2) 100 = 125 ∧
      (10 : ℚ) < 125 ∧ (125 : ℚ) < 240) :=
  ⟨by decide, iterative_bimodal_between_modes 2 (by decide)⟩
